import Mathlib

/-!
Verification of the autoflake rewrite engine (`src/autoflake.py`).

The source program is embedded shallowly: Python strings are modelled as
`List Char` (named `PyStr`), the external collaborators (pyflakes `check`,
the stdlib tokenizer, `ast.literal_eval`, and the environment-derived
`SAFE_IMPORTS` set) are abstracted as a record of deterministic functions
(`Py`), and every function of the rewrite engine itself is translated
directly from the source.  Python exceptions (assertion failures, index
errors, unpack errors) are modelled by `Option`, with `none` meaning the
Python program raises.
-/

set_option autoImplicit false

namespace Autoflake

/-- Python strings are modelled as lists of characters. -/
abbrev PyStr := List Char

/-- Shorthand turning a Lean string literal into the `List Char` model. -/
def lit (s : String) : PyStr := s.toList

/-- The characters of Python `string.whitespace` (also the ASCII fragment of
`str.isspace`, which covers every source text in this development). -/
def isPyWs (c : Char) : Bool :=
  c = ' ' ∨ c = '\t' ∨ c = '\n' ∨ c = '\r' ∨ c = '\x0b' ∨ c = '\x0c'

/-- Python `str.lstrip()`. -/
def lstripPy (l : PyStr) : PyStr := l.dropWhile isPyWs

/-- Python `str.rstrip()`. -/
def rstripPy (l : PyStr) : PyStr := (l.reverse.dropWhile isPyWs).reverse

/-- Python `str.strip()`. -/
def stripPy (l : PyStr) : PyStr := rstripPy (lstripPy l)

/-- Python `str.strip(chars)`: remove the given characters from both ends. -/
def stripChars (l : PyStr) (cs : List Char) : PyStr :=
  ((l.dropWhile (· ∈ cs)).reverse.dropWhile (· ∈ cs)).reverse

/-- `p` is a prefix of `l` (Python `str.startswith`). -/
def startsWithL : PyStr → PyStr → Bool
  | [], _ => true
  | _ :: _, [] => false
  | p :: ps, c :: cs => p = c && startsWithL ps cs

/-- `p` is a suffix of `l` (Python `str.endswith`). -/
def endsWithL (p l : PyStr) : Bool := startsWithL p.reverse l.reverse

/-- The last character of `l` is `c` (Python `str.endswith` with one char). -/
def endsWithCh (c : Char) (l : PyStr) : Bool :=
  match l.getLast? with
  | some d => d = c
  | none => false

/-- Python substring containment `pat in s`. -/
def containsSub (pat : PyStr) : PyStr → Bool
  | [] => startsWithL pat []
  | c :: rest => startsWithL pat (c :: rest) || containsSub pat rest

/-- Python `str.find(c)` for a single character: first index or `-1`. -/
def pyFind (c : Char) : PyStr → Int
  | [] => -1
  | a :: rest =>
      if a = c then 0
      else
        let k := pyFind c rest
        if k < 0 then -1 else k + 1

/-- Python `str.count(c)` for a single character. -/
def countCh (c : Char) (l : PyStr) : Nat := (l.filter (· = c)).length

/-- Lines as produced by `io.StringIO(source).readlines()`: pieces end after
each newline character, the newline is kept, and a final piece without a
newline is kept when nonempty. -/
def splitLines : PyStr → List PyStr
  | [] => []
  | c :: rest =>
      if c = '\n' then ['\n'] :: splitLines rest
      else
        match splitLines rest with
        | [] => [[c]]
        | l :: ls => (c :: l) :: ls

/-- Python `source.split("\n")`: separators removed, empty pieces kept. -/
def splitNl : PyStr → List PyStr
  | [] => [[]]
  | c :: rest =>
      if c = '\n' then [] :: splitNl rest
      else
        match splitNl rest with
        | [] => [[c]]
        | l :: ls => (c :: l) :: ls

/-- Python `str.split(",")` (any single separator character). -/
def splitOnChar (sep : Char) : PyStr → List PyStr
  | [] => [[]]
  | c :: rest =>
      if c = sep then [] :: splitOnChar sep rest
      else
        match splitOnChar sep rest with
        | [] => [[c]]
        | l :: ls => (c :: l) :: ls

/-- Python `str.split()` with no argument: split on whitespace runs,
discarding empty pieces. -/
def splitWs (l : PyStr) : List PyStr :=
  ((splitOnChar ' ' ((l.map (fun c => if isPyWs c then ' ' else c)))).filter
    (fun p => p ≠ []))

/-- Strict lexicographic comparison by code point, as Python `<` on `str`. -/
def pyStrLt : PyStr → PyStr → Bool
  | [], [] => false
  | [], _ :: _ => true
  | _ :: _, [] => false
  | a :: as_, b :: bs => if a = b then pyStrLt as_ bs else decide (a.toNat < b.toNat)

/-- Stable insertion of a string into a sorted list: placed before the first
strictly greater element, as Python `sorted` does for equal keys. -/
def pySortedInsert (x : PyStr) : List PyStr → List PyStr
  | [] => [x]
  | y :: ys => if pyStrLt x y then x :: y :: ys else y :: pySortedInsert x ys

/-- Python `sorted` on a list of strings (stable, ascending). -/
def pySorted : List PyStr → List PyStr
  | [] => []
  | x :: xs => pySortedInsert x (pySorted xs)

/-- Python word character for the `re` patterns used by the source (`\w`);
the sources handled here are ASCII. -/
def isWordCh (c : Char) : Bool := c.isAlphanum || c = '_'

/-- Helper for `\b pat \b` searches: the character before the match (if any)
must not be a word character. -/
def wordBoundaryOk (prev : Option Char) : Bool :=
  match prev with
  | none => true
  | some c => ¬ isWordCh c

/-- After-match boundary: the first character after the match (if any) must
not be a word character. -/
def afterBoundaryOk (l : PyStr) : Bool :=
  match l with
  | [] => true
  | c :: _ => ¬ isWordCh c

/-- `re.search(r"\b" + w + r"\b", s)` viewed as a Boolean, for a pattern `w`
made of word characters (used for `__all__`, `del`). -/
def containsWordGo (w : PyStr) (prev : Option Char) : PyStr → Bool
  | [] => false
  | c :: rest =>
      (wordBoundaryOk prev && startsWithL w (c :: rest) &&
        afterBoundaryOk (List.drop w.length (c :: rest))) ||
      containsWordGo w (some c) rest

/-- Whole-word containment used by the star-import gate. -/
def containsWord (w : PyStr) (s : PyStr) : Bool := containsWordGo w none s

/-- Index of the first whole-word occurrence of `w` in `s` (for the
`\bimport\b` split patterns). -/
def findWordIdxGo (w : PyStr) (prev : Option Char) (i : Nat) : PyStr → Option Nat
  | [] => none
  | c :: rest =>
      if wordBoundaryOk prev && startsWithL w (c :: rest) &&
          afterBoundaryOk (List.drop w.length (c :: rest)) then some i
      else findWordIdxGo w (some c) (i + 1) rest

/-- First whole-word match position of `w` in `s`. -/
def findWordIdx (w : PyStr) (s : PyStr) : Option Nat := findWordIdxGo w none 0 s

/-- `re.split(r"\bimport\b\s*", line, maxsplit=1)` unpacked into the pair
`(before, after)`; `none` models the `ValueError` raised by the source's
tuple unpacking when the keyword is absent. -/
def importSplit (line : PyStr) : Option (PyStr × PyStr) :=
  match findWordIdx (lit "import") line with
  | none => none
  | some i =>
      some (line.take i, (line.drop (i + 6)).dropWhile isPyWs)

/-- `re.split(r"\bimport\b", line, maxsplit=1)` (no trailing `\s*`),
unpacked the same way. -/
def importSplitNoWs (line : PyStr) : Option (PyStr × PyStr) :=
  match findWordIdx (lit "import") line with
  | none => none
  | some i => some (line.take i, line.drop (i + 6))

/-- The tail of `re.search(r"\bfrom\s+([^ ]+)", s)` after the literal
`from`: at least one whitespace character, then the greedy `[^ ]+` capture.
When the whitespace run reaches the end of the string the regex engine
backtracks the `\s+` so that `[^ ]+` can still match a non-space whitespace
character; both behaviours are reproduced. -/
def fromCaptureTail (t : PyStr) : Option PyStr :=
  let wsRun := t.takeWhile isPyWs
  if wsRun = [] then none
  else
    let rest := t.drop wsRun.length
    match rest with
    | c :: _ =>
        -- `c` is not whitespace, hence not a space: the capture starts here.
        some ((c :: rest.tail).takeWhile (· ≠ ' '))
    | [] =>
        -- Backtracking case: find the largest split point `k ≥ 1` inside the
        -- whitespace run whose character is not a literal space.
        let candidates := (List.range wsRun.length).filter
          (fun k => 1 ≤ k && (wsRun.drop k).headD ' ' ≠ ' ')
        match candidates.max? with
        | some k => some ((wsRun.drop k).takeWhile (· ≠ ' '))
        | none => none

/-- `re.search(r"\bfrom\s+([^ ]+)", s)`, returning the capture group. -/
def baseSearchGo (prev : Option Char) : PyStr → Option PyStr
  | [] => none
  | c :: rest =>
      if wordBoundaryOk prev && startsWithL (lit "from") (c :: rest) then
        match fromCaptureTail (List.drop 4 (c :: rest)) with
        | some cap => some cap
        | none => baseSearchGo (some c) rest
      else baseSearchGo (some c) rest

/-- The `BASE_RE` search of `FilterMultilineImport`. -/
def baseSearch (s : PyStr) : Option PyStr := baseSearchGo none s

/-- Python `str.replace(old, new)` (all non-overlapping occurrences, left to
right; an empty pattern inserts `new` between all characters). -/
def replaceSub : PyStr → PyStr → PyStr → PyStr
  | s, [], new => new ++ (s.map (fun c => c :: new)).flatten
  | [], _ :: _, _ => []
  | a :: s, o :: os, new =>
      if startsWithL (o :: os) (a :: s) then
        new ++ replaceSub (List.drop os.length s) (o :: os) new
      else a :: replaceSub s (o :: os) new
termination_by s _ _ => s.length
decreasing_by
  · simp only [List.length_cons, List.length_drop]
    omega
  · simp

/-- Python list indexing `l[i]` with negative-index support; `none` models
`IndexError`. -/
def pyIndex {α : Type} (l : List α) (i : Int) : Option α :=
  if 0 ≤ i then l.get? i.toNat
  else
    let j : Int := (l.length : Int) + i
    if 0 ≤ j then l.get? j.toNat else none

/-! ## Data model: diagnostics, tokens, collaborators, options -/

/-- One pyflakes finding, as consumed by the rewrite engine.  `unusedImport`
carries the fully-qualified module name already extracted from the message
text (the source extracts it with the regex `\'(.+?)\'`); `repeatedKey`
carries the repeated key value (`message_args[0]`), modelled as its
canonical representation string so that the grouping equality and the
comparison against `ast.literal_eval` results use the same equality. -/
inductive Msg where
  | unusedImport (lineno : Int) (module : PyStr)
  | unusedVariable (lineno : Int)
  | importStarUsed (lineno : Int)
  | importStarUsage (lineno : Int) (name : PyStr) (module : PyStr)
  | repeatedKey (lineno : Int) (key : PyStr)
  | other (lineno : Int)
deriving DecidableEq, Repr

/-- Line number of a message (`message.lineno`). -/
def Msg.lineno : Msg → Int
  | .unusedImport n _ => n
  | .unusedVariable n => n
  | .importStarUsed n => n
  | .importStarUsage n _ _ => n
  | .repeatedKey n _ => n
  | .other n => n

/-- Token types of the Python `tokenize` module used by the source. -/
inductive TokType where
  | NAME | NUMBER | STRING | NEWLINE | NL | INDENT | DEDENT | OP | COMMENT
  | ENDMARKER
deriving DecidableEq, Repr

/-- One token from `tokenize.generate_tokens`: the source reads the token
type (`token[0]`), the starting row (`token[2][0]`) and the physical line
text (`token[4]`). -/
structure Tok where
  type : TokType
  startRow : Int
  line : PyStr
deriving DecidableEq, Repr

/-- `ATOMS = frozenset([tokenize.NAME, tokenize.NUMBER, tokenize.STRING])`. -/
def ATOMS : List TokType := [.NAME, .NUMBER, .STRING]

/-- The external collaborators, abstracted as deterministic functions:
`check` is the pyflakes run, `tokenizeAll` is `tokenize.generate_tokens`
over a whole source (`none` models `SyntaxError`/`TokenError`), `tokFails`
tells whether the trial tokenization of a single line inside
`multiline_statement` raises, `literalEval` is `ast.literal_eval` (`none`
models `SyntaxError`/`ValueError`), and `safeImports` is the
environment-derived `SAFE_IMPORTS` set. -/
structure Py where
  check : PyStr → List Msg
  tokenizeAll : PyStr → Option (List Tok)
  tokFails : PyStr → Bool
  literalEval : PyStr → Option PyStr
  safeImports : List PyStr

/-- The keyword options of `fix_code`. -/
structure Options where
  additional_imports : Option (List PyStr) := none
  expand_star_imports : Bool := false
  remove_all_unused_imports : Bool := false
  remove_duplicate_keys : Bool := false
  remove_unused_variables : Bool := false
  remove_rhs_for_unused_variables : Bool := false
  ignore_init_module_imports : Bool := false
  ignore_pass_statements : Bool := false
  ignore_pass_after_docstring : Bool := false
deriving DecidableEq, Repr

/-! ## Message extraction helpers (`unused_import_line_numbers` etc.) -/

/-- `unused_import_line_numbers(messages)`. -/
def unusedImportLineNumbers (messages : List Msg) : List Int :=
  messages.filterMap fun m =>
    match m with
    | .unusedImport n _ => some n
    | _ => none

/-- `unused_import_module_name(messages)`: pairs of line number and
fully-qualified module name. -/
def unusedImportModuleName (messages : List Msg) : List (Int × PyStr) :=
  messages.filterMap fun m =>
    match m with
    | .unusedImport n mod => some (n, mod)
    | _ => none

/-- `star_import_used_line_numbers(messages)`. -/
def starImportUsedLineNumbers (messages : List Msg) : List Int :=
  messages.filterMap fun m =>
    match m with
    | .importStarUsed n => some n
    | _ => none

/-- The undefined names of `star_import_usage_undefined_name(messages)`. -/
def starImportUndefinedNames (messages : List Msg) : List PyStr :=
  messages.filterMap fun m =>
    match m with
    | .importStarUsage _ name _ => some name
    | _ => none

/-- `unused_variable_line_numbers(messages)`. -/
def unusedVariableLineNumbers (messages : List Msg) : List Int :=
  messages.filterMap fun m =>
    match m with
    | .unusedVariable n => some n
    | _ => none

/-- The `MultiValueRepeatedKeyLiteral` messages, as (lineno, key) pairs. -/
def repeatedKeyMsgs (messages : List Msg) : List (Int × PyStr) :=
  messages.filterMap fun m =>
    match m with
    | .repeatedKey n k => some (n, k)
    | _ => none

/-- `get_messages_by_line(messages)`: a dict from line number to message in
which a later message overwrites an earlier one on the same line. -/
def getMessagesByLine (messages : List Msg) (n : Int) : Option Msg :=
  (messages.filter (fun m => m.lineno = n)).getLast?

/-! ## Simple helpers of the rewrite engine -/

/-- `get_indentation(line)`. -/
def getIndentation (line : PyStr) : PyStr :=
  if stripPy line ≠ [] then line.take (line.length - (lstripPy line).length)
  else []

/-- `get_line_ending(line)`: the trailing whitespace of the line (the
source computes `len(line.rstrip()) - len(line)` and slices with it). -/
def getLineEnding (line : PyStr) : PyStr :=
  if (rstripPy line).length = line.length then []
  else line.drop (rstripPy line).length

/-- `_valid_char_in_line(char, line)`: the character occurs and is not
behind a `#`. -/
def validCharInLine (c : Char) (line : PyStr) : Bool :=
  let commentIndex := pyFind '#' line
  let charIndex := pyFind c line
  0 ≤ charIndex && (commentIndex > charIndex || commentIndex < 0)

/-- `_top_module(module_name)`; `none` models the `IndexError` on an empty
name. -/
def topModule (moduleName : PyStr) : Option PyStr :=
  match moduleName with
  | [] => none
  | c :: _ =>
      if c = '.' then some (lit "%LOCAL_MODULE%")
      else some (moduleName.takeWhile (· ≠ '.'))

/-- `_modules_to_remove(unused_modules, safe_to_remove)`. -/
def modulesToRemove (unused : List PyStr) (safe : List PyStr) :
    Option (List PyStr) :=
  match unused with
  | [] => some []
  | x :: rest => do
      let t ← topModule x
      let r ← modulesToRemove rest safe
      pure (if t ∈ safe then x :: r else r)

/-- `multiline_statement(line, previous_line)`. -/
def multilineStatement (py : Py) (line : PyStr) (previousLine : PyStr) :
    Bool :=
  ('\\' ∈ line || ':' ∈ line || ';' ∈ line) ||
    (if py.tokFails line then true else endsWithCh '\\' (rstripPy previousLine))

/-- `multiline_import(line, previous_line)`. -/
def multilineImport (py : Py) (line : PyStr) (previousLine : PyStr) : Bool :=
  ('(' ∈ line || ')' ∈ line) || multilineStatement py line previousLine

/-- `extract_package_name(line)`.  The outer `Option` models the assertion
failures and the `IndexError` on `line.split()[1]`; the inner `Option` is
the Python `None` returned for lines that do not start an import (the
doctest case). -/
def extractPackageName (line : PyStr) : Option (Option PyStr) :=
  if '\\' ∈ line || '(' ∈ line || ')' ∈ line || ';' ∈ line then none
  else if startsWithL (lit "import") (lstripPy line) ||
      startsWithL (lit "from") (lstripPy line) then
    match splitWs line with
    | _ :: word :: _ =>
        let package := word.takeWhile (· ≠ '.')
        if ' ' ∈ package then none else some (some package)
    | _ => none
  else some none

/-! ## Segment splitting (`SEGMENT_RE`) and `_filter_imports` -/

/-- Characters matched by `[^,\s]` in `SEGMENT_RE`. -/
def isSegCh (c : Char) : Bool := ¬ (c = ',' || isPyWs c)

/-- Characters matched by `[\s\\]` in `SEGMENT_RE`. -/
def isSegWs (c : Char) : Bool := isPyWs c || c = '\\'

/-- Characters matched by the trailing class `[,\s\\)]` of `SEGMENT_RE`. -/
def isTrailCh (c : Char) : Bool := c = ',' || isPyWs c || c = '\\' || c = ')'

/-- The optional `(?:[\s\\]+as[\s\\]+[^,\s]+)?` clause of `SEGMENT_RE`,
matched at the head of `l`; returns the matched text and the rest.  The
character classes are disjoint from the letters of `as`, so the greedy
matching needs no further backtracking. -/
def segAsClause (l : PyStr) : Option (PyStr × PyStr) :=
  let s1 := l.takeWhile isSegWs
  if s1 = [] then none
  else
    let r := l.drop s1.length
    if startsWithL (lit "as") r then
      let r2 := r.drop 2
      let s2 := r2.takeWhile isSegWs
      if s2 = [] then none
      else
        let r3 := r2.drop s2.length
        let m := r3.takeWhile isSegCh
        if m = [] then none
        else some (s1 ++ lit "as" ++ s2 ++ m, r3.drop m.length)
    else none

/-- One match of `SEGMENT_RE` starting at a `[^,\s]` character: the module
part, the optional `as` clause, and the trailing separator run.  The match
consumes exactly its own text, so the rest of the input is the input with
`(segOne l).length` characters dropped. -/
def segOne (l : PyStr) : PyStr :=
  let r1 := l.takeWhile isSegCh
  let rest := l.drop r1.length
  let asPart : PyStr :=
    match segAsClause rest with
    | some (m, _) => m
    | none => []
  let rest2 := rest.drop asPart.length
  let tr := rest2.takeWhile isTrailCh
  r1 ++ asPart ++ tr

/-- `SEGMENT_RE.findall(text)`: non-overlapping matches left to right;
positions where no match can start (commas and whitespace) are skipped. -/
def segmentsOf : PyStr → List PyStr
  | [] => []
  | c :: rest =>
      if h : isSegCh c then
        let seg := segOne (c :: rest)
        seg :: segmentsOf (List.drop seg.length (c :: rest))
      else segmentsOf rest
termination_by l => l.length
decreasing_by
  · show (List.drop (segOne (c :: rest)).length (c :: rest)).length <
      (c :: rest).length
    have h1 : 1 ≤ (segOne (c :: rest)).length := by
      simp only [segOne, List.takeWhile_cons, h, if_pos, List.length_append,
        List.length_cons]
      omega
    simp only [List.length_drop, List.length_cons]
    omega
  · simp

/-- `_segment_module(segment)`. -/
def segmentModule (segment : PyStr) : PyStr :=
  let s := stripChars segment
    (lit " \t\n\r\x0b\x0c" ++ [',', '\\', '(', ')'])
  if s = [] then segment else s

/-- `_filter_imports(imports, parent, unused_module)`. -/
def filterImports (imports : List PyStr) (parent : Option PyStr)
    (unusedModule : List PyStr) : List PyStr :=
  let sep : PyStr :=
    match parent with
    | some p => if p ≠ [] ∧ p.getLastD ' ' = '.' then [] else ['.']
    | none => ['.']
  let fullName : PyStr → PyStr := fun name =>
    match parent with
    | none => name
    | some p => p ++ sep ++ name
  imports.filter (fun x => ¬ fullName x ∈ unusedModule)

/-! ## `FilterMultilineImport` -/

/-- The state of a `FilterMultilineImport` object. -/
structure MultiFix where
  remove : List PyStr
  parenthesized : Bool
  from_ : PyStr
  base : Option PyStr
  give_up : Bool
  accumulator : List PyStr
deriving DecidableEq, Repr

/-- The condition of `FilterMultilineImport.analyze`: the statement is
abandoned when a line contains `;`, `:` or `#`. -/
def analyzeGiveUp (line : PyStr) : Bool :=
  ';' ∈ line || ':' ∈ line || '#' ∈ line

/-- `FilterMultilineImport.__init__(line, unused_module,
remove_all_unused_imports, safe_to_remove, previous_line)`; `none` models
the unpack error when the line has no `import` keyword and the `IndexError`
inside `_top_module` on an empty module name. -/
def mkMultiFix (line : PyStr) (unusedModule : List PyStr)
    (removeAllUnusedImports : Bool) (safeToRemove : List PyStr)
    (previousLine : PyStr) : Option MultiFix := do
  let (from_, imports) ← importSplit line
  let parenthesized := '(' ∈ line
  let base := baseSearch from_
  let (remove, giveUp1) ←
    if removeAllUnusedImports then pure (unusedModule, false)
    else
      match base with
      | some b =>
          if b ≠ [] then do
            let t ← topModule b
            if ¬ t ∈ safeToRemove then pure (unusedModule, true)
            else do
              let r ← modulesToRemove unusedModule safeToRemove
              pure (r, false)
          else do
            let r ← modulesToRemove unusedModule safeToRemove
            pure (r, false)
      | none => do
          let r ← modulesToRemove unusedModule safeToRemove
          pure (r, false)
  let giveUp2 := giveUp1 || '\\' ∈ previousLine
  let giveUp3 := giveUp2 || analyzeGiveUp line
  pure { remove := remove, parenthesized := parenthesized, from_ := from_,
         base := base, give_up := giveUp3, accumulator := [imports] }

/-- `FilterMultilineImport.is_over(line)`: `line or self.accumulator[-1]`
selects the argument when it is a nonempty string. -/
def MultiFix.isOverL (m : MultiFix) (line : Option PyStr) : Bool :=
  let l :=
    match line with
    | some l => if l ≠ [] then l else m.accumulator.getLastD []
    | none => m.accumulator.getLastD []
  if m.parenthesized then validCharInLine ')' l
  else ¬ validCharInLine '\\' l

/-- The segment list computed inside `FilterMultilineImport.fix` (the
`[x for x in self.SEGMENT_RE.findall(old_imports) if x]` stage). -/
def fixSegments (old : PyStr) : List PyStr :=
  (segmentsOf old).filter (fun x => x ≠ [])

/-- The module list computed inside `FilterMultilineImport.fix` (the
`[_segment_module(x) for x in segments]` stage). -/
def fixModules (old : PyStr) : List PyStr :=
  (fixSegments old).map segmentModule

/-- The surviving module list computed inside `FilterMultilineImport.fix`
(the `_filter_imports(modules, self.base, self.remove)` stage). -/
def MultiFix.fixKeep (m : MultiFix) (accumulated : List PyStr) : List PyStr :=
  filterImports (fixModules accumulated.flatten) m.base m.remove

/-- `FilterMultilineImport.fix(accumulated)`. -/
def MultiFix.fix (m : MultiFix) (accumulated : List PyStr) : PyStr :=
  let old := accumulated.flatten
  let ending := getLineEnding old
  let segments := fixSegments old
  let modules := fixModules old
  let keep := m.fixKeep accumulated
  if keep.length = segments.length then
    m.from_ ++ lit "import " ++ accumulated.flatten
  else
    let fixed : PyStr :=
      if keep ≠ [] then
        let templates := modules.zip segments
        let templates2 :=
          templates.take (keep.length - 1) ++
            templates.drop (templates.length - 1)
        let f := (templates2.enum.map
          (fun p => replaceSub p.2.2 p.2.1 (keep.getD p.1 []))).flatten
        if m.parenthesized && (¬ '(' ∈ f || ¬ ')' ∈ f) then
          stripChars f (lit " \t\n\r\x0b\x0c" ++ ['(', ')']) ++ ending
        else f
      else []
    let empty :=
      (stripChars fixed
        (lit " \t\n\r\x0b\x0c" ++ ['\\', '(', ')', ','])).length < 1
    if empty then (m.from_.takeWhile isPyWs) ++ lit "pass" ++ ending
    else m.from_ ++ lit "import " ++ fixed

/-- The result of one helper call in the rewrite loop: either a final string
or a pending multi-line fix that swallows the next line. -/
inductive LineResult where
  | txt (s : PyStr)
  | pend (m : MultiFix)
deriving DecidableEq, Repr

/-- `FilterMultilineImport.__call__(line)` (with `line=None` for the
initial call).  A nonempty line is appended and analysed; when the
statement is over, the give-up path re-emits the accumulated text and the
normal path delegates to `fix`. -/
def MultiFix.feed (m : MultiFix) (line : Option PyStr) : LineResult :=
  let m' :=
    match line with
    | some l =>
        if l ≠ [] then
          { m with accumulator := m.accumulator ++ [l],
                   give_up := m.give_up || analyzeGiveUp l }
        else m
    | none => m
  if ¬ m'.isOverL line then .pend m'
  else if m'.give_up then
    .txt (m'.from_ ++ lit "import " ++ m'.accumulator.flatten)
  else .txt (m'.fix m'.accumulator)

/-! ## Single-line filters -/

/-- `break_up_import(line)`; `none` models the assertion failures and the
unpack error when the line has no `import` keyword. -/
def breakUpImport (line : PyStr) : Option PyStr :=
  if '\\' ∈ line || '(' ∈ line || ')' ∈ line || ';' ∈ line || '#' ∈ line ||
      startsWithL (lit "from") (lstripPy line) then none
  else
    let newline := getLineEnding line
    if newline = [] then some line
    else
      match importSplitNoWs line with
      | none => none
      | some (indentation, imports) =>
          let indentation := indentation ++ lit "import "
          some ((pySorted (splitOnChar ',' imports)).map
            (fun i => indentation ++ stripPy i ++ newline)).flatten

/-- `filter_from_import(line, unused_module)`; `none` models the attribute
error when the `from` base or the `import` keyword cannot be found. -/
def filterFromImport (line : PyStr) (unusedModule : List PyStr) :
    Option PyStr := do
  let (indentation, imports) ← importSplitNoWs line
  let baseModule ← baseSearch indentation
  let importsL := (splitOnChar ',' (stripPy imports)).map stripPy
  let filteredImports := filterImports importsL (some baseModule) unusedModule
  if filteredImports = [] then
    pure (getIndentation line ++ lit "pass" ++ getLineEnding line)
  else
    pure (indentation ++ lit "import " ++
      List.intercalate (lit ", ") (pySorted filteredImports) ++
      getLineEnding line)

/-- `filter_unused_import(line, unused_module,
remove_all_unused_imports, imports, previous_line)`. -/
def filterUnusedImport (py : Py) (line : PyStr) (unusedModule : List PyStr)
    (removeAllUnusedImports : Bool) (imports : List PyStr)
    (previousLine : PyStr) : Option LineResult :=
  if startsWithL (lit ">") (lstripPy line) then some (.txt line)
  else if multilineImport py line previousLine then
    (mkMultiFix line unusedModule removeAllUnusedImports imports
      previousLine).map (fun filt => filt.feed none)
  else
    let isFromImport := startsWithL (lit "from") (lstripPy line)
    if ',' ∈ line && ¬ isFromImport then
      (breakUpImport line).map .txt
    else
      match extractPackageName line with
      | none => none
      | some package =>
          let packageIn : Bool :=
            match package with
            | some p => p ∈ imports
            | none => false
          if ¬ removeAllUnusedImports && ¬ packageIn then some (.txt line)
          else if ',' ∈ line then
            if isFromImport then (filterFromImport line unusedModule).map .txt
            else none
          else
            some (.txt (getIndentation line ++ lit "pass" ++
              getLineEnding line))

/-- The whole-line Boolean of `EXCEPT_REGEX`
(`^\s*except [\s,()\w]+ as \w+:$`): the tail ` as \w+:` anchored by `$`
(end of string or just before a final newline). -/
def exceptAsTail (l : PyStr) : Bool :=
  startsWithL (lit " as ") l &&
    (let r := l.drop 4
     let w := r.takeWhile isWordCh
     w ≠ [] &&
       (r.drop w.length = [':'] || r.drop w.length = [':', '\n']))

/-- The `[\s,()\w]` class of `EXCEPT_REGEX`. -/
def isExceptCh (c : Char) : Bool :=
  isPyWs c || c = ',' || c = '(' || c = ')' || isWordCh c

/-- After `except `: at least one class character, then ` as \w+:$`
somewhere; the class contains the letters of `as`, so any split realises a
match (regex backtracking). -/
def exceptSearch : PyStr → Bool
  | [] => false
  | c :: rest => isExceptCh c && (exceptAsTail rest || exceptSearch rest)

/-- `re.match(EXCEPT_REGEX, line)` as a Boolean. -/
def exceptMatch (line : PyStr) : Bool :=
  let rest := lstripPy line
  startsWithL (lit "except ") rest && exceptSearch (rest.drop 7)

/-- Leftmost match of `re.sub(r" as \w+:$", ":", line, count=1)`: on a
match, keep everything before it and the text from the `:` on. -/
def exceptSubGo : PyStr → Option PyStr
  | [] => none
  | c :: rest =>
      if exceptAsTail (c :: rest) then
        let r := (c :: rest).drop 4
        some (r.drop (r.takeWhile isWordCh).length)
      else (exceptSubGo rest).map (fun t => c :: t)

/-- `re.sub(r" as \w+:$", ":", line, count=1)`. -/
def exceptSub (line : PyStr) : PyStr := (exceptSubGo line).getD line

/-- `is_literal_or_name(value)`. -/
def isLiteralOrName (py : Py) (value : PyStr) : Bool :=
  (py.literalEval value).isSome ||
  (stripPy value = lit "dict()" || stripPy value = lit "list()" ||
    stripPy value = lit "set()") ||
  (let w := value.takeWhile isWordCh
   w ≠ [] && (value.drop w.length).all isPyWs)

/-- `filter_unused_variable(line, previous_line="", drop_rhs)`; the rewrite
loop always calls it with an empty previous line. -/
def filterUnusedVariable (py : Py) (line : PyStr) (dropRhs : Bool) : PyStr :=
  if exceptMatch line then exceptSub line
  else if multilineStatement py line [] then line
  else if countCh '=' line = 1 then
    let lhs := line.takeWhile (· ≠ '=')
    let value := lstripPy (line.drop (lhs.length + 1))
    if ',' ∈ lhs then line
    else if isLiteralOrName py value then
      getIndentation line ++ lit "pass" ++ getLineEnding line
    else if dropRhs then []
    else getIndentation line ++ value
  else line

/-- `filter_star_import(line, marked_star_import_undefined_name)`: every
`*` is replaced by the sorted, de-duplicated name list. -/
def filterStarImport (line : PyStr) (names : List PyStr) : PyStr :=
  let rep := List.intercalate (lit ", ") (pySorted names.dedup)
  (line.map (fun c => if c = '*' then rep else [c])).flatten

/-- Minimum of a list of integers (`sorted(s)[0]` for a nonempty set). -/
def listMin (l : List Int) : Int :=
  match l with
  | [] => 0
  | x :: rest => rest.foldl min x

/-- `filter_duplicate_key(line, message, line_number,
marked_line_numbers, source)`. -/
def filterDuplicateKey (line : PyStr) (_message : Option Msg)
    (lineNumber : Int) (markedLineNumbers : List Int) (_source : PyStr) :
    PyStr :=
  if markedLineNumbers ≠ [] ∧ lineNumber = listMin markedLineNumbers then []
  else line

/-! ## Duplicate-key verification (`dict_entry_has_key` and grouping) -/

/-- The match of `re.match(r"\s*(.*)\s*:\s*(.*),\s*$", line)` for a line
without internal newlines, returning the two capture groups.  Greedy
matching picks the last `:` that is followed by a comma whose suffix is all
whitespace, and then the last such comma. -/
def dictEntryMatch (line : PyStr) : Option (PyStr × PyStr) :=
  let n := line.length
  let commaOk : Nat → Bool := fun j =>
    line.getD j ' ' = ',' && (line.drop (j + 1)).all isPyWs
  match ((List.range n).filter commaOk).max? with
  | none => none
  | some jmax =>
      match ((List.range jmax).filter
          (fun i => line.getD i ' ' = ':')).max? with
      | none => none
      | some imax =>
          let w0 := (line.takeWhile isPyWs).length
          let g1 := (line.take imax).drop w0
          let afterColon := (line.take jmax).drop (imax + 1)
          let w1 := (afterColon.takeWhile isPyWs).length
          some (g1, afterColon.drop w1)

/-- `dict_entry_has_key(line, key)`. -/
def dictEntryHasKey (py : Py) (line : PyStr) (key : PyStr) : Bool :=
  if '#' ∈ line then false
  else
    match dictEntryMatch line with
    | none => false
    | some (g1, g2) =>
        match py.literalEval g1 with
        | none => false
        | some candidateKey =>
            if multilineStatement py g2 [] then false
            else candidateKey = key

/-- Key grouping of `create_key_to_messages_dict`: a `defaultdict` keyed by
the repeated key, iterated in first-insertion order. -/
def keysInOrder (ms : List (Int × PyStr)) : List PyStr :=
  ms.foldl (fun acc m => if m.2 ∈ acc then acc else acc ++ [m.2]) []

/-- The groups of `create_key_to_messages_dict`, in iteration order. -/
def dupGroups (ms : List (Int × PyStr)) : List (PyStr × List (Int × PyStr)) :=
  (keysInOrder ms).map (fun k => (k, ms.filter (fun m => m.2 = k)))

/-- The `good` flag of one duplicate-key group: every member line still
verifies textually.  Every line is looked up even after a failure, exactly
as the source loop does, so an out-of-range line number always raises. -/
def dupGood (py : Py) (lines : List PyStr) :
    List (Int × PyStr) → Option Bool
  | [] => some true
  | m :: rest => do
      let line ← pyIndex lines (m.1 - 1)
      let b ← dupGood py lines rest
      pure (dictEntryHasKey py line m.2 && b)

/-- The yield loop of `duplicate_key_line_numbers`: good groups contribute
all their line numbers, in group order. -/
def dupYield (py : Py) (lines : List PyStr) :
    List (PyStr × List (Int × PyStr)) → Option (List Int)
  | [] => some []
  | g :: gs => do
      let good ← dupGood py lines g.2
      let rest ← dupYield py lines gs
      pure ((if good then g.2.map (fun m => m.1) else []) ++ rest)

/-- `duplicate_key_line_numbers(messages, source)`. -/
def duplicateKeyLineNumbers (py : Py) (messages : List Msg)
    (source : PyStr) : Option (List Int) :=
  let ms := repeatedKeyMsgs messages
  if ms = [] then some []
  else dupYield py (splitNl source) (dupGroups ms)

/-! ## The star-import gate of `filter_code` -/

/-- The `marked_star_import_line_numbers` computation of `filter_code`
(lines 530-550 of the source): expansion requires the option, the absence
of whole-word `__all__` and `del`, at most one distinct flagged line, and a
nonempty undefined-name list. -/
def markedStarImportLineNumbers (o : Options) (source : PyStr)
    (messages : List Msg) : List Int :=
  if o.expand_star_imports &&
      ¬ containsWord (lit "__all__") source &&
      ¬ containsWord (lit "del") source then
    let marked := (starImportUsedLineNumbers messages).dedup
    if marked.length > 1 then []
    else if starImportUndefinedNames messages = [] then []
    else marked
  else []

/-! ## The per-line dispatch loop of `filter_code` -/

/-- The per-pass context of the rewrite loop: the marked line-number sets
and auxiliary data computed by `filter_code` before iterating over the
lines. -/
structure FCtx where
  py : Py
  markedImportLineNumbers : List Int
  markedUnusedModule : Int → List PyStr
  markedVariableLineNumbers : List Int
  markedKeyLineNumbers : List Int
  markedStarLineNumbers : List Int
  undefinedNames : List PyStr
  lineMessages : Int → Option Msg
  imports : List PyStr
  remove_all_unused_imports : Bool
  remove_rhs_for_unused_variables : Bool
  source : PyStr

/-- The dispatcher state: either scanning, or delegating to an active
`PendingFix`. -/
inductive FCState where
  | scanning
  | pend (m : MultiFix)

/-- The per-line decision of `filter_code` taken from the scanning state:
the `elif` chain of the loop body (lines 574-600 of the source). -/
def dispatchScanning (ctx : FCtx) (lineNumber : Int)
    (previousLine line : PyStr) : Option LineResult :=
  if '#' ∈ line then some (.txt line)
  else if lineNumber ∈ ctx.markedImportLineNumbers then
    filterUnusedImport ctx.py line (ctx.markedUnusedModule lineNumber)
      ctx.remove_all_unused_imports ctx.imports previousLine
  else if lineNumber ∈ ctx.markedVariableLineNumbers then
    some (.txt (filterUnusedVariable ctx.py line
      ctx.remove_rhs_for_unused_variables))
  else if lineNumber ∈ ctx.markedKeyLineNumbers then
    some (.txt (filterDuplicateKey line (ctx.lineMessages lineNumber)
      lineNumber ctx.markedKeyLineNumbers ctx.source))
  else if lineNumber ∈ ctx.markedStarLineNumbers then
    some (.txt (filterStarImport line ctx.undefinedNames))
  else some (.txt line)

/-- The line loop of `filter_code`: a pending fix swallows the line,
otherwise the scanning dispatch decides; string results are yielded, a
pending fix is carried to the next line (and silently dropped at end of
input, as the generator simply ends). -/
def fcGo (ctx : FCtx) : FCState → Int → PyStr → List PyStr →
    Option (List PyStr)
  | _, _, _, [] => some []
  | st, n, prev, line :: rest =>
      let res : Option LineResult :=
        match st with
        | .pend m => some (m.feed (some line))
        | .scanning => dispatchScanning ctx n prev line
      match res with
      | none => none
      | some (.txt r) =>
          match fcGo ctx .scanning (n + 1) line rest with
          | none => none
          | some out => some (r :: out)
      | some (.pend m) => fcGo ctx (.pend m) (n + 1) line rest

/-- The precomputation of `filter_code` (everything before the loop);
`none` models an exception raised by `duplicate_key_line_numbers`. -/
def mkFCtx (py : Py) (o : Options) (source : PyStr) : Option FCtx := do
  let imports := py.safeImports ++ (o.additional_imports.getD [])
  let messages := py.check source
  let markedImportLineNumbers :=
    if o.ignore_init_module_imports then []
    else unusedImportLineNumbers messages
  let markedKeyLineNumbers ←
    if o.remove_duplicate_keys then duplicateKeyLineNumbers py messages source
    else some []
  pure
    { py := py
      markedImportLineNumbers := markedImportLineNumbers
      markedUnusedModule := fun n =>
        (unusedImportModuleName messages).filterMap
          (fun p => if p.1 = n then some p.2 else none)
      markedVariableLineNumbers :=
        if o.remove_unused_variables then unusedVariableLineNumbers messages
        else []
      markedKeyLineNumbers := markedKeyLineNumbers
      markedStarLineNumbers := markedStarImportLineNumbers o source messages
      undefinedNames := starImportUndefinedNames messages
      lineMessages := getMessagesByLine messages
      imports := imports
      remove_all_unused_imports := o.remove_all_unused_imports
      remove_rhs_for_unused_variables := o.remove_rhs_for_unused_variables
      source := source }

/-- `filter_code(source, ...)` collected into the list of yielded strings. -/
def filterCode (py : Py) (o : Options) (source : PyStr) :
    Option (List PyStr) := do
  let ctx ← mkFCtx py o source
  fcGo ctx .scanning 1 [] (splitLines source)

/-! ## The redundant-`pass` detector -/

/-- The scan state of `useless_pass_line_numbers`: the previous token type,
the last `pass` row and indentation, and the previous physical line. -/
structure UPState where
  prevTokType : Option TokType
  lastPassRow : Option Int
  lastPassIndentation : Option PyStr
  prevLine : PyStr
deriving DecidableEq, Repr

/-- The initial scan state. -/
def upInit : UPState :=
  { prevTokType := none, lastPassRow := none, lastPassIndentation := none,
    prevLine := [] }

/-- One token step of `useless_pass_line_numbers`: returns the next state
and the rows yielded at this token.  The leading-`pass` rule fires on a
non-`pass` atom directly below a `pass` of equal indentation; the
trailing-`pass` rule fires on a `pass` that does not open its block, except
that a `pass` directly after a docstring line is skipped (with a `continue`
that leaves the previous-token bookkeeping untouched) when the
`ignore_pass_after_docstring` knob is on. -/
def upStep (ignorePassAfterDocstring : Bool) (st : UPState) (t : Tok) :
    UPState × List Int :=
  let isPass := t.type = .NAME ∧ stripPy t.line = lit "pass"
  let lead : List Int :=
    if st.lastPassRow = some (t.startRow - 1) ∧
        st.lastPassIndentation = some (getIndentation t.line) ∧
        t.type ∈ ATOMS ∧ ¬ isPass then [t.startRow - 1]
    else []
  if isPass then
    let st1 : UPState :=
      { st with
        lastPassRow := some t.startRow
        lastPassIndentation := some (getIndentation t.line) }
    let isTrailingPass :=
      st.prevTokType ≠ some .INDENT ∧
        ¬ endsWithCh '\\' (rstripPy st.prevLine)
    let isPassAfterDocstring :=
      st.prevTokType = some .NEWLINE ∧
        endsWithL (lit "\"\"\"") (rstripPy st.prevLine)
    if isTrailingPass then
      if isPassAfterDocstring ∧ ignorePassAfterDocstring then (st1, lead)
      else
        ({ st1 with prevTokType := some t.type, prevLine := t.line },
          lead ++ [t.startRow])
    else ({ st1 with prevTokType := some t.type, prevLine := t.line }, lead)
  else ({ st with prevTokType := some t.type, prevLine := t.line }, lead)

/-- `useless_pass_line_numbers(source, ignore_pass_after_docstring)` on an
already tokenized source. -/
def uselessPassLineNumbers (toks : List Tok)
    (ignorePassAfterDocstring : Bool) : List Int :=
  (toks.foldl
    (fun acc t =>
      let p := upStep ignorePassAfterDocstring acc.1 t
      (p.1, acc.2 ++ p.2))
    ((upInit, []) : UPState × List Int)).2

/-- `filter_useless_pass(source, ignore_pass_statements,
ignore_pass_after_docstring)`: a tokenizer failure yields the empty marked
set, then the marked lines are dropped. -/
def filterUselessPass (py : Py) (source : PyStr)
    (ignorePassStatements ignorePassAfterDocstring : Bool) : List PyStr :=
  let markedLines : List Int :=
    if ignorePassStatements then []
    else
      match py.tokenizeAll source with
      | none => []
      | some toks => uselessPassLineNumbers toks ignorePassAfterDocstring
  (splitLines source).enum.filterMap
    (fun p => if ((p.1 : Int) + 1) ∈ markedLines then none else some p.2)

/-! ## The fixed-point driver `fix_code` -/

/-- One pass of the driver:
`filter_useless_pass("".join(filter_code(source, ...)), ...)`. -/
def onePass (py : Py) (o : Options) (source : PyStr) : Option PyStr := do
  let filtered ← filterCode py o source
  pure (filterUselessPass py filtered.flatten o.ignore_pass_statements
    o.ignore_pass_after_docstring).flatten

/-- The `while True` loop of `fix_code`, with defensive fuel (the source
loop has no cap; `none` covers both exhausted fuel and a raising pass). -/
def fixLoop (py : Py) (o : Options) : Nat → PyStr → Option PyStr
  | 0, _ => none
  | n + 1, source => do
      let filteredSource ← onePass py o source
      if filteredSource = source then pure filteredSource
      else fixLoop py o n filteredSource

/-- `"nonlocal" in source` (substring containment). -/
def hasNonlocal (source : PyStr) : Bool := containsSub (lit "nonlocal") source

/-- `fix_code(source, ...)`: empty input is returned unchanged; a source
containing the `nonlocal` keyword disables unused-variable removal for the
whole loop. -/
def fixCode (py : Py) (o : Options) (fuel : Nat) (source : PyStr) :
    Option PyStr :=
  if source = [] then some source
  else
    let o := if hasNonlocal source then
      { o with remove_unused_variables := false } else o
    fixLoop py o fuel source

/-! ## Auxiliary definitions for the statements -/

/-- A dispatcher run that stays in the scanning state: every line's
scanning decision is a final string, never a pending fix (and never an
exception).  Because the previous-line context is the raw previous input
line, this is a per-line condition. -/
def noPendingRun (ctx : FCtx) : Int → PyStr → List PyStr → Bool
  | _, _, [] => true
  | n, prev, line :: rest =>
      (match dispatchScanning ctx n prev line with
        | some (.txt _) => true
        | _ => false) && noPendingRun ctx (n + 1) line rest

/-! ## Concrete instances used by witnesses and counterexamples -/

/-- A trivial collaborator record: no diagnostics, an empty token stream,
no tokenizer failures, no evaluable literals. -/
def pyT : Py :=
  { check := fun _ => []
    tokenizeAll := fun _ => some []
    tokFails := fun _ => false
    literalEval := fun _ => none
    safeImports := [lit "os"] }

/-- All options at their defaults. -/
def oDef : Options := {}

/-- A one-line assignment used by several witnesses. -/
def srcW2 : PyStr := lit "x = 1\n"

/-- The comma-joined direct import of the line-count counterexample. -/
def srcC2 : PyStr := lit "import a, b\n"

/-- Collaborator for the line-count counterexample: pyflakes reports the
first module of `import a, b` as unused (message
`'a' imported but unused` on line 1). -/
def pyC2 : Py :=
  { check := fun src =>
      if src = srcC2 then [.unusedImport 1 (lit "a")] else []
    tokenizeAll := fun _ => some []
    tokFails := fun _ => false
    literalEval := fun _ => none
    safeImports := [lit "os"] }

/-- The single string yielded by the pass on `srcC2`: `break_up_import`
splits the statement into one line per module. -/
def outC2 : PyStr := lit "import a\nimport b\n"

/-- Opening line of the give-up counterexample: a parenthesized from-import
with no space after the `import` keyword (legal Python). -/
def lnC3a : PyStr := lit "from os import(path,\n"

/-- Closing line of the give-up counterexample; its `#` comment sets the
`give_up` flag. -/
def lnC3b : PyStr := lit "sep)  # c\n"

/-- The `FilterMultilineImport` state right after construction on `lnC3a`
with unused modules `os.path`, `os.sep` (equals
`mkMultiFix lnC3a [os.path, os.sep] false [os] ""`). -/
def mC3 : MultiFix :=
  { remove := [lit "os.path", lit "os.sep"]
    parenthesized := true
    from_ := lit "from os "
    base := some (lit "os")
    give_up := false
    accumulator := [lit "(path,\n"] }

/-- What the give-up path emits for the counterexample: the whitespace
after `import` has been normalized to one space. -/
def outC3 : PyStr := lit "from os import (path,\nsep)  # c\n"

/-- `ast.literal_eval` on the integer key literals of the duplicate-key
examples. -/
def litEvalW4 (v : PyStr) : Option PyStr :=
  if v = lit "1" then some (lit "1")
  else if v = lit "2" then some (lit "2")
  else if v = lit "7" then some (lit "7")
  else none

/-- Collaborator for the duplicate-key examples. -/
def pyW4 : Py :=
  { check := fun _ => []
    tokenizeAll := fun _ => some []
    tokFails := fun _ => false
    literalEval := litEvalW4
    safeImports := [] }

/-- Duplicate-key diagnostics of the all-or-nothing counterexample: key
`b` flagged on line 2, key `a` flagged on lines 2 and 3 (the analyzer is
free to attribute line numbers this way; the function must cope). -/
def msgsC4 : List Msg :=
  [.repeatedKey 2 (lit "1"), .repeatedKey 2 (lit "2"),
   .repeatedKey 3 (lit "2")]

/-- Source of the all-or-nothing counterexample. -/
def srcC4 : PyStr := lit "x = \x7b\n1: 0,\n2: 0,\n\x7d"

/-- Messages of the duplicate-key witness: one fully verifiable group. -/
def msgsW4 : List Msg := [.repeatedKey 2 (lit "7"), .repeatedKey 3 (lit "7")]

/-- Source of the duplicate-key witness. -/
def srcW4 : PyStr := lit "x = \x7b\n7: 0,\n7: 1,\n\x7d"

/-- A commented line carrying an unused-import diagnostic, for the
comment-protection witness. -/
def lineW6 : PyStr := lit "import os  # unused\n"

/-- A dispatcher context whose line 1 carries an unused-import diagnostic,
for the comment-protection witness. -/
def ctxW6 : FCtx :=
  { py := pyT
    markedImportLineNumbers := [1]
    markedUnusedModule := fun _ => [lit "os"]
    markedVariableLineNumbers := []
    markedKeyLineNumbers := []
    markedStarLineNumbers := []
    undefinedNames := []
    lineMessages := fun _ => none
    imports := [lit "os"]
    remove_all_unused_imports := false
    remove_rhs_for_unused_variables := false
    source := lineW6 }

/-- A source containing the `nonlocal` keyword, for the witness of the
variable-removal gate. -/
def srcW8 : PyStr := lit "nonlocal x\n"

/-- Options with unused-variable removal enabled. -/
def oW8 : Options := { remove_unused_variables := true }

/-- The same options with unused-variable removal disabled. -/
def oW8f : Options := { remove_unused_variables := false }

/-- Source of the docstring-`pass` counterexample: a module docstring, a
`pass`, and a following statement at the same indentation. -/
def srcC9 : PyStr := lit "\"\"\"d\"\"\"\npass\nx\n"

/-- The exact `tokenize.generate_tokens` stream of `srcC9`. -/
def toksC9 : List Tok :=
  [ { type := .STRING, startRow := 1, line := lit "\"\"\"d\"\"\"\n" },
    { type := .NEWLINE, startRow := 1, line := lit "\"\"\"d\"\"\"\n" },
    { type := .NAME, startRow := 2, line := lit "pass\n" },
    { type := .NEWLINE, startRow := 2, line := lit "pass\n" },
    { type := .NAME, startRow := 3, line := lit "x\n" },
    { type := .NEWLINE, startRow := 3, line := lit "x\n" },
    { type := .ENDMARKER, startRow := 4, line := [] } ]

/-- Tokenizer of the docstring-`pass` counterexample. -/
def tokenizeC9 (src : PyStr) : Option (List Tok) :=
  if src = srcC9 then some toksC9 else some []

/-- Collaborator for the docstring-`pass` counterexample. -/
def pyC9 : Py :=
  { check := fun _ => []
    tokenizeAll := tokenizeC9
    tokFails := fun _ => false
    literalEval := fun _ => none
    safeImports := [] }

/-- Scan state just before a `pass` token that directly follows a
docstring line. -/
def stW9 : UPState :=
  { prevTokType := some .NEWLINE
    lastPassRow := none
    lastPassIndentation := none
    prevLine := lit "    \"\"\"doc\"\"\"\n" }

/-- The `pass` token following the docstring. -/
def tW9 : Tok := { type := .NAME, startRow := 3, line := lit "    pass\n" }

/-! ### The idempotence counterexample -/

/-- Source of the idempotence counterexample: the unused import
`nonlocals` contains `nonlocal` as a substring, so the first `fix_code`
run disables unused-variable removal; the import is removed anyway, and
the second run starts from a source without the substring. -/
def srcC1 : PyStr := lit "import nonlocals\ndef f():\n    x = 1\n"

/-- The fixed point of the first run. -/
def r1C1 : PyStr := lit "def f():\n    x = 1\n"

/-- The fixed point of the second run: the unused variable is now
replaced by `pass`. -/
def r2C1 : PyStr := lit "def f():\n    pass\n"

/-- Intermediate text of the first run after `filter_code`. -/
def p1C1 : PyStr := lit "pass\ndef f():\n    x = 1\n"

/-- Physical lines shared by the token streams below. -/
def lnDef : PyStr := lit "def f():\n"

/-- See `lnDef`. -/
def lnX : PyStr := lit "    x = 1\n"

/-- See `lnDef`. -/
def lnPassTop : PyStr := lit "pass\n"

/-- See `lnDef`. -/
def lnPassInd : PyStr := lit "    pass\n"

/-- The `tokenize` stream of `p1C1`. -/
def toksP1 : List Tok :=
  [ ⟨.NAME, 1, lnPassTop⟩, ⟨.NEWLINE, 1, lnPassTop⟩,
    ⟨.NAME, 2, lnDef⟩, ⟨.NAME, 2, lnDef⟩, ⟨.OP, 2, lnDef⟩, ⟨.OP, 2, lnDef⟩,
    ⟨.OP, 2, lnDef⟩, ⟨.NEWLINE, 2, lnDef⟩,
    ⟨.INDENT, 3, lnX⟩, ⟨.NAME, 3, lnX⟩, ⟨.OP, 3, lnX⟩, ⟨.NUMBER, 3, lnX⟩,
    ⟨.NEWLINE, 3, lnX⟩, ⟨.DEDENT, 4, []⟩, ⟨.ENDMARKER, 4, []⟩ ]

/-- The `tokenize` stream of `r1C1`. -/
def toksR1 : List Tok :=
  [ ⟨.NAME, 1, lnDef⟩, ⟨.NAME, 1, lnDef⟩, ⟨.OP, 1, lnDef⟩, ⟨.OP, 1, lnDef⟩,
    ⟨.OP, 1, lnDef⟩, ⟨.NEWLINE, 1, lnDef⟩,
    ⟨.INDENT, 2, lnX⟩, ⟨.NAME, 2, lnX⟩, ⟨.OP, 2, lnX⟩, ⟨.NUMBER, 2, lnX⟩,
    ⟨.NEWLINE, 2, lnX⟩, ⟨.DEDENT, 3, []⟩, ⟨.ENDMARKER, 3, []⟩ ]

/-- The `tokenize` stream of `r2C1`. -/
def toksR2 : List Tok :=
  [ ⟨.NAME, 1, lnDef⟩, ⟨.NAME, 1, lnDef⟩, ⟨.OP, 1, lnDef⟩, ⟨.OP, 1, lnDef⟩,
    ⟨.OP, 1, lnDef⟩, ⟨.NEWLINE, 1, lnDef⟩,
    ⟨.INDENT, 2, lnPassInd⟩, ⟨.NAME, 2, lnPassInd⟩, ⟨.NEWLINE, 2, lnPassInd⟩,
    ⟨.DEDENT, 3, []⟩, ⟨.ENDMARKER, 3, []⟩ ]

/-- The collaborator of the idempotence counterexample: pyflakes flags the
unused import on line 1 and the function-local unused variable `x`; the
tokenizer returns the real streams of the three texts it is asked to
tokenize. -/
def pyC1 : Py :=
  { check := fun src =>
      if src = srcC1 then
        [.unusedImport 1 (lit "nonlocals"), .unusedVariable 3]
      else if src = r1C1 then [.unusedVariable 2]
      else []
    tokenizeAll := fun src =>
      if src = p1C1 then some toksP1
      else if src = r1C1 then some toksR1
      else if src = r2C1 then some toksR2
      else some []
    tokFails := fun _ => false
    literalEval := fun v => if v = lit "1\n" then some (lit "1") else none
    safeImports := [lit "os"] }

/-- Options of the idempotence counterexample: remove all unused imports
and unused variables. -/
def oC1 : Options :=
  { remove_all_unused_imports := true, remove_unused_variables := true }

/-! ## Helper lemmas -/

/-- The value returned by the `while True` loop of `fix_code` is a fixed
point of one pass. -/
theorem fixLoop_fixpoint (py : Py) (o : Options) :
    ∀ (n : Nat) (s r : PyStr), fixLoop py o n s = some r →
      onePass py o r = some r := by
  intro n
  induction n with
  | zero => intro s r h; simp [fixLoop] at h
  | succ n ih =>
      intro s r h
      unfold fixLoop at h
      cases hp : onePass py o s with
      | none => rw [hp] at h; simp at h
      | some f =>
          rw [hp] at h
          simp only [Option.bind_eq_bind, Option.some_bind] at h
          by_cases hf : f = s
          · rw [if_pos hf] at h
            have hr : r = f := by simpa using h.symm
            rw [hr, hf]
            rw [hf] at hp
            exact hp
          · rw [if_neg hf] at h
            exact ih f r h

/-- `splitLines` of a nonempty string is nonempty. -/
theorem splitLines_ne_nil (l : PyStr) (h : l ≠ []) : splitLines l ≠ [] := by
  cases l with
  | nil => exact absurd rfl h
  | cons c rest =>
      unfold splitLines
      by_cases hc : c = '\n'
      · simp [hc]
      · simp only [if_neg hc]
        cases splitLines rest <;> simp

/-- The cons equation of `splitLines`. -/
theorem splitLines_cons (c : Char) (rest : PyStr) :
    splitLines (c :: rest) =
      if c = '\n' then ['\n'] :: splitLines rest
      else
        match splitLines rest with
        | [] => [[c]]
        | l :: ls => (c :: l) :: ls := rfl

/-- A string that is a single newline-terminated line prepends as one line
under `splitLines`. -/
theorem splitLines_append_singleNl :
    ∀ (r : PyStr), splitLines r = [r] → endsWithCh '\n' r = true →
      ∀ t, splitLines (r ++ t) = r :: splitLines t := by
  intro r
  induction r with
  | nil => intro h1 _ _; simp [splitLines] at h1
  | cons c r' ih =>
      intro h1 h2 t
      rw [splitLines_cons] at h1
      by_cases hc : c = '\n'
      · subst hc
        rw [if_pos rfl] at h1
        simp only [List.cons.injEq] at h1
        have hr' : r' = [] := h1.1.2.symm
        subst hr'
        rfl
      · rw [if_neg hc] at h1
        cases hs : splitLines r' with
        | nil =>
            rw [hs] at h1
            simp only [List.cons.injEq] at h1
            have hr' : r' = [] := h1.1.2.symm
            subst hr'
            simp [endsWithCh, hc] at h2
        | cons l ls =>
            rw [hs] at h1
            simp only [List.cons.injEq] at h1
            obtain ⟨⟨_, hl⟩, hls⟩ := h1
            have hs' : splitLines r' = [r'] := by rw [hs, hl, hls]
            have hr'ne : r' ≠ [] := by
              intro hre
              rw [hre] at hs'
              simp [splitLines] at hs'
            have h2' : endsWithCh '\n' r' = true := by
              unfold endsWithCh at h2 ⊢
              cases r' with
              | nil => exact absurd rfl hr'ne
              | cons d r'' => rw [List.getLast?_cons_cons] at h2; exact h2
            have ihh := ih hs' h2' t
            show splitLines (c :: (r' ++ t)) = (c :: r') :: splitLines t
            rw [splitLines_cons, if_neg hc, ihh]

/-- Flattening a list of single newline-terminated lines and re-splitting
recovers the list. -/
theorem splitLines_flatten (outs : List PyStr)
    (h : ∀ r ∈ outs, splitLines r = [r] ∧ endsWithCh '\n' r = true) :
    splitLines outs.flatten = outs := by
  induction outs with
  | nil => simp [splitLines]
  | cons r rest ih =>
      have hr := h r (by simp)
      have hrest : ∀ x ∈ rest, splitLines x = [x] ∧ endsWithCh '\n' x = true :=
        fun x hx => h x (by simp [hx])
      simp only [List.flatten_cons]
      rw [splitLines_append_singleNl r hr.1 hr.2, ih hrest]

/-- A dispatcher pass that never opens a pending fix yields exactly one
string per input line. -/
theorem fcGo_noPend (ctx : FCtx) :
    ∀ (lines : List PyStr) (n : Int) (prev : PyStr) (outs : List PyStr),
      noPendingRun ctx n prev lines = true →
      fcGo ctx .scanning n prev lines = some outs →
      outs.length = lines.length := by
  intro lines
  induction lines with
  | nil =>
      intro n prev outs _ hf
      have : outs = [] := by simpa [fcGo] using hf.symm
      simp [this]
  | cons line rest ih =>
      intro n prev outs hn hf
      unfold noPendingRun at hn
      rw [Bool.and_eq_true] at hn
      obtain ⟨hn1, hn2⟩ := hn
      cases hd : dispatchScanning ctx n prev line with
      | none => rw [hd] at hn1; simp at hn1
      | some lr =>
          cases lr with
          | pend m => rw [hd] at hn1; simp at hn1
          | txt r =>
              unfold fcGo at hf
              rw [hd] at hf
              cases hrec : fcGo ctx .scanning (n + 1) line rest with
              | none => rw [hrec] at hf; simp at hf
              | some out =>
                  rw [hrec] at hf
                  have : outs = r :: out := by simpa using hf.symm
                  subst this
                  simp [ih (n + 1) line out hn2 hrec]

/-- A line whose stripped tail ends in `"""` does not end in a
backslash. -/
theorem endsWith_quotes_not_backslash (l : PyStr)
    (h : endsWithL (lit "\"\"\"") l = true) : endsWithCh '\\' l = false := by
  unfold endsWithL at h
  unfold endsWithCh
  cases hr : l.reverse with
  | nil => rw [hr] at h; simp [startsWithL, lit] at h
  | cons c cs =>
      rw [hr] at h
      have hc : c = '"' := by
        have : ('"' : Char) = c ∧ startsWithL ['"', '"'] cs = true := by
          simpa [lit, startsWithL] using h
        exact this.1.symm
      have : l.getLast? = some c := by
        rw [← List.head?_reverse, hr]
        rfl
      rw [this, hc]
      simp

/-! ## Claim theorems -/

/-- The cons equation of the `filter_code` loop. -/
theorem fcGo_cons (ctx : FCtx) (st : FCState) (n : Int)
    (prev line : PyStr) (rest : List PyStr) :
    fcGo ctx st n prev (line :: rest) =
      match (match st with
             | .pend m => some (m.feed (some line))
             | .scanning => dispatchScanning ctx n prev line) with
      | none => none
      | some (.txt r) =>
          match fcGo ctx .scanning (n + 1) line rest with
          | none => none
          | some out => some (r :: out)
      | some (.pend m) => fcGo ctx (.pend m) (n + 1) line rest := rfl

/-- C6: In the default scanning state, a line containing `#` is emitted by
the `filter_code` loop unchanged and the state stays scanning, regardless
of the diagnostics recorded for its line number (the context `ctx` is
arbitrary). -/
theorem filter_code_commented_line_unchanged
    (ctx : FCtx) (n : Int) (prev line : PyStr) (rest : List PyStr)
    (h : '#' ∈ line) :
    fcGo ctx .scanning n prev (line :: rest) =
      (fcGo ctx .scanning (n + 1) line rest).map
        (fun out => line :: out) := by
  have hd : dispatchScanning ctx n prev line = some (.txt line) := by
    unfold dispatchScanning
    rw [if_pos h]
  rw [fcGo_cons]
  simp only [hd]
  cases hrec : fcGo ctx FCState.scanning (n + 1) line rest <;> simp [hrec]

/-- C6 witness: a commented line whose line number carries an
unused-import diagnostic passes through unchanged. -/
theorem filter_code_commented_line_unchanged_witness :
    '#' ∈ lineW6 ∧
    fcGo ctxW6 .scanning 1 [] (lineW6 :: []) =
      (fcGo ctxW6 .scanning (1 + 1) lineW6 []).map
        (fun out => lineW6 :: out) :=
  ⟨by decide, filter_code_commented_line_unchanged ctxW6 1 [] lineW6 []
    (by decide)⟩

/-- C7: The survivor list computed by `FilterMultilineImport.fix` is a
sublist of the module list parsed from the accumulated input: it is never
longer, every surviving name occurs among the parsed modules, and the
survivors keep their original relative order (`fix` splices exactly these
survivors into the kept segment templates). -/
theorem multiline_fix_survivors_sublist (m : MultiFix)
    (accumulated : List PyStr) :
    List.Sublist (m.fixKeep accumulated) (fixModules accumulated.flatten) ∧
    (m.fixKeep accumulated).length ≤
      (fixSegments accumulated.flatten).length ∧
    ∀ x ∈ m.fixKeep accumulated, x ∈ fixModules accumulated.flatten := by
  have hs : List.Sublist (m.fixKeep accumulated)
      (fixModules accumulated.flatten) := by
    unfold MultiFix.fixKeep filterImports
    exact List.filter_sublist _
  refine ⟨hs, ?_, fun x hx => hs.subset hx⟩
  have hlen := hs.length_le
  calc (m.fixKeep accumulated).length
      ≤ (fixModules accumulated.flatten).length := hlen
    _ = (fixSegments accumulated.flatten).length := by
        unfold fixModules; simp

/-- C8: A source containing `nonlocal` (as a substring) makes `fix_code`
behave exactly as if `remove_unused_variables` had been passed as false,
all other options unchanged. -/
theorem fix_code_nonlocal_disables_variable_removal
    (py : Py) (o : Options) (fuel : Nat) (source : PyStr)
    (h : hasNonlocal source = true) :
    fixCode py o fuel source =
      fixCode py { o with remove_unused_variables := false } fuel source := by
  unfold fixCode
  rw [h]
  rfl

/-- C8 witness: on a source containing `nonlocal`, the two option records
produce the same result. -/
theorem fix_code_nonlocal_disables_variable_removal_witness :
    hasNonlocal srcW8 = true ∧
    fixCode pyT oW8 1 srcW8 =
      fixCode pyT { oW8 with remove_unused_variables := false } 1 srcW8 :=
  ⟨by decide,
    fix_code_nonlocal_disables_variable_removal pyT oW8 1 srcW8 (by decide)⟩

/-- C10: For nonempty lines, `filter_duplicate_key` returns the empty
string exactly for the minimum of the marked duplicate-key line numbers of
the whole file (and only when that set is nonempty); every other call
returns the line unchanged, so per pass at most one line number can
receive the empty string. -/
theorem filter_duplicate_key_min_only
    (line : PyStr) (message : Option Msg) (lineNumber : Int)
    (marked : List Int) (source : PyStr) (h : line ≠ []) :
    ((filterDuplicateKey line message lineNumber marked source = []) ↔
      (marked ≠ [] ∧ lineNumber = listMin marked)) ∧
    (filterDuplicateKey line message lineNumber marked source = [] ∨
      filterDuplicateKey line message lineNumber marked source = line) ∧
    (∀ (line₂ : PyStr) (message₂ : Option Msg) (n₂ : Int), line₂ ≠ [] →
      filterDuplicateKey line message lineNumber marked source = [] →
      filterDuplicateKey line₂ message₂ n₂ marked source = [] →
      lineNumber = n₂) := by
  refine ⟨?_, ?_, ?_⟩
  · unfold filterDuplicateKey
    split
    · next hcond => simp [hcond]
    · next hcond => simpa [h] using hcond
  · unfold filterDuplicateKey
    split
    · exact Or.inl rfl
    · exact Or.inr rfl
  · intro line₂ message₂ n₂ h₂ e1 e2
    unfold filterDuplicateKey at e1 e2
    have c1 : marked ≠ [] ∧ lineNumber = listMin marked := by
      by_contra hcon
      rw [if_neg hcon] at e1
      exact h e1
    have c2 : marked ≠ [] ∧ n₂ = listMin marked := by
      by_contra hcon
      rw [if_neg hcon] at e2
      exact h₂ e2
    rw [c1.2, c2.2]

/-- C10 witness: with marked lines `{3, 5}`, line 3 is removed and line 5
is kept. -/
theorem filter_duplicate_key_min_only_witness :
    (lit "x: 1,\n") ≠ ([] : PyStr) ∧
    ((filterDuplicateKey (lit "x: 1,\n") none 3 [3, 5] [] = []) ↔
      (([3, 5] : List Int) ≠ [] ∧ (3 : Int) = listMin [3, 5])) ∧
    (filterDuplicateKey (lit "x: 1,\n") none 3 [3, 5] [] = [] ∨
      filterDuplicateKey (lit "x: 1,\n") none 3 [3, 5] [] = lit "x: 1,\n") ∧
    (∀ (line₂ : PyStr) (message₂ : Option Msg) (n₂ : Int), line₂ ≠ [] →
      filterDuplicateKey (lit "x: 1,\n") none 3 [3, 5] [] = [] →
      filterDuplicateKey line₂ message₂ n₂ [3, 5] [] = [] →
      (3 : Int) = n₂) :=
  ⟨by decide, filter_duplicate_key_min_only (lit "x: 1,\n") none 3 [3, 5] []
    (by decide)⟩

/-- C3 (amended): When the accumulator closes on a nonempty line with the
`give_up` flag set (already set, or set by the closing line itself), the
emitted text is the pre-`import` prefix, the word `import` followed by
exactly one space, then the accumulated lines; this equals the original
statement verbatim precisely when the whitespace after the `import`
keyword on the opening line was a single space (the reconstruction
normalizes that whitespace). -/
theorem multiline_give_up_emits_normalized
    (m : MultiFix) (l out orig : PyStr) (h0 : l ≠ [])
    (h1 : (m.give_up || analyzeGiveUp l) = true)
    (h2 : m.feed (some l) = .txt out) :
    out = m.from_ ++ lit "import " ++ (m.accumulator.flatten ++ l) ∧
    (orig = m.from_ ++ lit "import " ++ m.accumulator.flatten →
      out = orig ++ l) := by
  unfold MultiFix.feed at h2
  simp only [if_pos h0] at h2
  split at h2
  · exact absurd h2 (by simp)
  · have hout : out =
        m.from_ ++ lit "import " ++ (m.accumulator ++ [l]).flatten := by
      injection h2 with he
      exact he.symm
    constructor
    · rw [hout]
      simp
    · intro ho
      rw [hout, ho]
      simp

/-- C3 witness: a two-line parenthesized from-import whose second line
carries a comment closes on the give-up path, emitting the normalized
text. -/
theorem multiline_give_up_emits_normalized_witness :
    lnC3b ≠ ([] : PyStr) ∧
    (mC3.give_up || analyzeGiveUp lnC3b) = true ∧
    mC3.feed (some lnC3b) = .txt outC3 ∧
    (outC3 = mC3.from_ ++ lit "import " ++ (mC3.accumulator.flatten ++ lnC3b) ∧
      (lit "from os import (path,\n" =
          mC3.from_ ++ lit "import " ++ mC3.accumulator.flatten →
        outC3 = lit "from os import (path,\n" ++ lnC3b)) :=
  ⟨by decide, by decide, by decide,
    multiline_give_up_emits_normalized mC3 lnC3b outC3
      (lit "from os import (path,\n") (by decide) (by decide) (by decide)⟩

/-- C3 counterexample: the closed give-up emission is not the original
text character for character.  The construct opens with
`from os import(path,` (no space after `import`, legal Python), the second
line `sep)  # c` sets `give_up` via its comment, and the emitted statement
has gained a space after `import`.  `mC3` is exactly the constructed
state, as the first conjunct checks. -/
theorem multiline_give_up_verbatim_cex :
    mkMultiFix lnC3a [lit "os.path", lit "os.sep"] false [lit "os"] [] =
      some mC3 ∧
    mC3.feed (some lnC3b) = .txt outC3 ∧
    outC3 ≠ lnC3a ++ lnC3b := by
  refine ⟨by decide, by decide, by decide⟩

/-- C5: A line number is in the star-import expansion set exactly when the
`expand_star_imports` option is set, the source contains no whole-word
`__all__` and no whole-word `del`, the diagnostics flag exactly one
distinct star-import line (this one), and at least one undefined name is
reported.  Since the dispatcher calls `filter_star_import` only on members
of this set, in every other case no star-import line is modified. -/
theorem star_import_expansion_gate (o : Options) (source : PyStr)
    (messages : List Msg) (n : Int) :
    n ∈ markedStarImportLineNumbers o source messages ↔
      (o.expand_star_imports = true ∧
        containsWord (lit "__all__") source = false ∧
        containsWord (lit "del") source = false ∧
        (starImportUsedLineNumbers messages).dedup = [n] ∧
        starImportUndefinedNames messages ≠ []) := by
  unfold markedStarImportLineNumbers
  by_cases he : o.expand_star_imports
  · by_cases ha : containsWord (lit "__all__") source
    · simp [he, ha]
    · by_cases hd : containsWord (lit "del") source
      · simp [he, ha, hd]
      · rw [if_pos (by simp [he, ha, hd])]
        have hrhs : (o.expand_star_imports = true ∧
            containsWord (lit "__all__") source = false ∧
            containsWord (lit "del") source = false ∧
            (starImportUsedLineNumbers messages).dedup = [n] ∧
            starImportUndefinedNames messages ≠ []) ↔
            ((starImportUsedLineNumbers messages).dedup = [n] ∧
              starImportUndefinedNames messages ≠ []) := by
          have ha' : containsWord (lit "__all__") source = false := by
            simpa using ha
          have hd' : containsWord (lit "del") source = false := by
            simpa using hd
          simp [he, ha', hd']
        rw [hrhs]
        by_cases hl : ((starImportUsedLineNumbers messages).dedup).length > 1
        · rw [if_pos hl]
          simp only [List.not_mem_nil, false_iff, not_and]
          intro hcon
          rw [hcon] at hl
          simp at hl
        · rw [if_neg hl]
          by_cases hn : starImportUndefinedNames messages = []
          · simp [hn]
          · rw [if_neg hn]
            simp only [hn, ne_eq, not_false_eq_true, and_true]
            constructor
            · intro hmem
              cases hms : (starImportUsedLineNumbers messages).dedup with
              | nil => rw [hms] at hmem; simp at hmem
              | cons a t =>
                  cases t with
                  | nil =>
                      rw [hms] at hmem
                      simp only [List.mem_singleton] at hmem
                      rw [hmem]
                  | cons b t2 =>
                      rw [hms] at hl
                      simp at hl
            · intro hcon
              rw [hcon]
              simp
  · simp [he]

/-- C1 (amended): the fixed-point driver is idempotent on every source
whose fixed output contains `nonlocal` exactly when the input does (in
particular whenever the input has no `nonlocal` substring, or
`remove_unused_variables` is off).  Without that proviso the
`nonlocal`-gate can re-enable unused-variable removal on the second run;
see the counterexample. -/
theorem fix_code_idempotent_of_stable_nonlocal
    (py : Py) (o : Options) (fuel fuel' : Nat) (s r : PyStr)
    (h : fixCode py o fuel s = some r)
    (hn : hasNonlocal r = hasNonlocal s) :
    fixCode py o (fuel' + 1) r = some r := by
  unfold fixCode at h ⊢
  by_cases hs : s = []
  · rw [if_pos hs] at h
    have hr : r = s := by simpa using h.symm
    subst hr
    rw [if_pos hs]
  · rw [if_neg hs] at h
    have hfix := fixLoop_fixpoint py
      (if hasNonlocal s then { o with remove_unused_variables := false }
        else o) fuel s r h
    by_cases hr : r = []
    · rw [if_pos hr]
    · rw [if_neg hr, hn]
      unfold fixLoop
      rw [hfix]
      simp

/-- C1 witness: a clean one-line source is a fixed point, and re-running
`fix_code` on it returns it again. -/
theorem fix_code_idempotent_witness :
    fixCode pyT oDef 2 srcW2 = some srcW2 ∧
    hasNonlocal srcW2 = hasNonlocal srcW2 ∧
    fixCode pyT oDef (0 + 1) srcW2 = some srcW2 :=
  ⟨by decide, rfl,
    fix_code_idempotent_of_stable_nonlocal pyT oDef 2 0 srcW2 srcW2
      (by decide) rfl⟩

/-- C1 counterexample: `fix_code` is not idempotent as claimed.  The
source `import nonlocals\ndef f():\n    x = 1\n` contains `nonlocal` as a
substring, so the first run disables unused-variable removal for its whole
loop, yet removes the unused import; the first run's output no longer
contains the substring, so running `fix_code` on it removes the unused
variable as well, producing a different text.  The collaborator record
`pyC1` returns the pyflakes diagnostics and real token streams of exactly
the texts produced during the two runs. -/
theorem fix_code_idempotence_cex :
    fixCode pyC1 oC1 3 srcC1 = some r1C1 ∧
    fixCode pyC1 oC1 3 r1C1 = some r2C1 ∧
    r2C1 ≠ r1C1 := by
  refine ⟨by decide, by decide, by decide⟩

/-- C2 (amended): a Dispatcher pass that never opens a multi-line pending
fix yields exactly one string per input line; if moreover every yielded
string is a single newline-terminated line (in particular none is the
empty string of an outright deletion and none is a multi-line
`break_up_import` result), the output has exactly as many physical lines
as the input. -/
theorem filter_code_single_line_results_preserve_count
    (py : Py) (o : Options) (source : PyStr) (ctx : FCtx)
    (outs : List PyStr)
    (hctx : mkFCtx py o source = some ctx)
    (hnp : noPendingRun ctx 1 [] (splitLines source) = true)
    (hfc : filterCode py o source = some outs) :
    outs.length = (splitLines source).length ∧
    ((∀ r ∈ outs, splitLines r = [r] ∧ endsWithCh '\n' r = true) →
      (splitLines outs.flatten).length = (splitLines source).length) := by
  have hgo : fcGo ctx .scanning 1 [] (splitLines source) = some outs := by
    unfold filterCode at hfc
    rw [hctx] at hfc
    simpa using hfc
  have hlen := fcGo_noPend ctx (splitLines source) 1 [] outs hnp hgo
  refine ⟨hlen, fun hone => ?_⟩
  rw [splitLines_flatten outs hone, hlen]

/-- C2 witness: a pass that touches nothing yields the single input line
and preserves the line count. -/
theorem filter_code_line_count_witness :
    filterCode pyT oDef srcW2 = some [srcW2] ∧
    ([srcW2] : List PyStr).length = (splitLines srcW2).length ∧
    (splitLines (List.flatten [srcW2])).length =
      (splitLines srcW2).length := by
  have h1 : filterCode pyT oDef srcW2 = some [srcW2] := by decide
  refine ⟨h1, ?_, ?_⟩
  · decide
  · obtain ⟨ctx, hctx⟩ : ∃ ctx, mkFCtx pyT oDef srcW2 = some ctx := ⟨_, rfl⟩
    have hnp : noPendingRun ctx 1 [] (splitLines srcW2) = true := by
      cases hctx
      decide
    have := filter_code_single_line_results_preserve_count pyT oDef srcW2
      ctx [srcW2] hctx hnp h1
    exact this.2 (by decide)

/-- C2 counterexample: a pass in which nothing is deleted outright (no
yielded string is empty) still changes the physical line count, because
`break_up_import` turns the one line `import a, b` into two lines when its
first module is reported unused. -/
theorem filter_code_line_count_cex :
    filterCode pyC2 oDef srcC2 = some [outC2] ∧
    (∀ r ∈ [outC2], r ≠ ([] : PyStr)) ∧
    (splitLines (List.flatten [outC2])).length = 2 ∧
    (splitLines srcC2).length = 1 := by
  refine ⟨by decide, by decide, by decide, by decide⟩

/-- Membership in the duplicate-key yield: exactly the line numbers of the
groups whose every member verifies. -/
theorem dupYield_mem (py : Py) (lines : List PyStr) :
    ∀ (gs : List (PyStr × List (Int × PyStr))) (res : List Int) (l : Int),
      dupYield py lines gs = some res →
      (l ∈ res ↔ ∃ g ∈ gs, dupGood py lines g.2 = some true ∧
        l ∈ g.2.map (fun m => m.1)) := by
  intro gs
  induction gs with
  | nil =>
      intro res l h
      have : res = [] := by simpa [dupYield] using h.symm
      subst this
      simp
  | cons g gs ih =>
      intro res l h
      unfold dupYield at h
      cases hg : dupGood py lines g.2 with
      | none => rw [hg] at h; simp at h
      | some good =>
          rw [hg] at h
          cases hrest : dupYield py lines gs with
          | none => rw [hrest] at h; simp at h
          | some rest =>
              rw [hrest] at h
              have hres :
                  res = (if good then g.2.map (fun m => m.1) else []) ++
                    rest := by
                simpa using h.symm
              subst hres
              rw [List.mem_append, ih rest l hrest]
              cases good with
              | true =>
                  simp only [if_pos]
                  constructor
                  · intro hc
                    cases hc with
                    | inl hmem =>
                        exact ⟨g, List.mem_cons_self g gs, hg, hmem⟩
                    | inr hex =>
                        obtain ⟨x, hx, hgx, hmx⟩ := hex
                        exact ⟨x, List.mem_cons_of_mem g hx, hgx, hmx⟩
                  · intro hc
                    obtain ⟨x, hx, hgx, hmx⟩ := hc
                    rcases List.mem_cons.mp hx with hxg | hxs
                    · subst hxg
                      exact Or.inl hmx
                    · exact Or.inr ⟨x, hxs, hgx, hmx⟩
              | false =>
                  simp only [if_neg, List.nil_append, Bool.false_eq_true,
                    ite_false, List.not_mem_nil, false_or]
                  constructor
                  · intro hex
                    obtain ⟨x, hx, hgx, hmx⟩ := hex
                    exact ⟨x, List.mem_cons_of_mem g hx, hgx, hmx⟩
                  · intro hc
                    obtain ⟨x, hx, hgx, hmx⟩ := hc
                    rcases List.mem_cons.mp hx with hxg | hxs
                    · subst hxg
                      rw [hg] at hgx
                      simp at hgx
                    · exact ⟨x, hxs, hgx, hmx⟩

/-- C4 (amended): `duplicate_key_line_numbers` yields exactly the union of
the line numbers of the fully verified groups: a group with any failing
member contributes none of its line numbers, and a fully verified group
contributes all of them.  All-or-nothing membership per group therefore
holds unless a line number is shared with a different, fully verified
group (the counterexample exploits exactly that sharing). -/
theorem duplicate_key_group_membership
    (py : Py) (messages : List Msg) (source : PyStr) (res : List Int)
    (l : Int)
    (h : duplicateKeyLineNumbers py messages source = some res) :
    l ∈ res ↔ ∃ g ∈ dupGroups (repeatedKeyMsgs messages),
      dupGood py (splitNl source) g.2 = some true ∧
      l ∈ g.2.map (fun m => m.1) := by
  unfold duplicateKeyLineNumbers at h
  by_cases hms : repeatedKeyMsgs messages = []
  · rw [if_pos hms] at h
    have : res = [] := by simpa using h.symm
    subst this
    simp [dupGroups, hms, keysInOrder]
  · rw [if_neg hms] at h
    exact dupYield_mem py (splitNl source) _ res l h

/-- C4 witness: a fully verifiable duplicate-key group yields all its line
numbers. -/
theorem duplicate_key_group_membership_witness :
    duplicateKeyLineNumbers pyW4 msgsW4 srcW4 = some [2, 3] ∧
    ((2 : Int) ∈ ([2, 3] : List Int) ↔
      ∃ g ∈ dupGroups (repeatedKeyMsgs msgsW4),
        dupGood pyW4 (splitNl srcW4) g.2 = some true ∧
        (2 : Int) ∈ g.2.map (fun m => m.1)) :=
  ⟨by decide,
    duplicate_key_group_membership pyW4 msgsW4 srcW4 [2, 3] 2 (by decide)⟩

/-- C4 counterexample: all-or-nothing fails for a group when one of its
line numbers is shared with a different, fully verified group.  Key `2` is
flagged on lines 2 and 3 and its group fails verification (line 2 is the
entry of key `1`), yet line 2 is still yielded through the verified group
of key `1`: the group of key `2` has one member line yielded and one not. -/
theorem duplicate_key_all_or_nothing_cex :
    duplicateKeyLineNumbers pyW4 msgsC4 srcC4 = some [2] ∧
    ((repeatedKeyMsgs msgsC4).filter
      (fun m => m.2 = lit "2")).map (fun m => m.1) = [2, 3] ∧
    (2 : Int) ∈ ([2] : List Int) ∧ ¬ (3 : Int) ∈ ([2] : List Int) := by
  refine ⟨by decide, by decide, by decide, by decide⟩

/-- C9 (amended): with `ignore_pass_after_docstring` on, processing a
`pass` token that directly follows a completed line ending in a closing
triple quote yields nothing at that token (the trailing-pass rule is
skipped, and the leading-pass rule never fires on a `pass` token), and the
previous-token bookkeeping is left untouched by the `continue`.  The row
can still be reported later by the leading-pass rule when real code
follows directly below; see the counterexample. -/
theorem pass_after_docstring_not_trailing_reported
    (st : UPState) (t : Tok)
    (h1 : st.prevTokType = some TokType.NEWLINE)
    (h2 : endsWithL (lit "\"\"\"") (rstripPy st.prevLine) = true)
    (h3 : t.type = TokType.NAME)
    (h4 : stripPy t.line = lit "pass") :
    (upStep true st t).2 = [] ∧
    ((upStep true st t).1).prevTokType = st.prevTokType ∧
    ((upStep true st t).1).prevLine = st.prevLine := by
  have hbs := endsWith_quotes_not_backslash _ h2
  unfold upStep
  simp [h1, h2, h3, h4, hbs]

/-- C9 witness: a `pass` token after an indented docstring line yields
nothing and leaves the bookkeeping untouched. -/
theorem pass_after_docstring_not_trailing_reported_witness :
    stW9.prevTokType = some TokType.NEWLINE ∧
    endsWithL (lit "\"\"\"") (rstripPy stW9.prevLine) = true ∧
    (upStep true stW9 tW9).2 = [] ∧
    ((upStep true stW9 tW9).1).prevTokType = stW9.prevTokType ∧
    ((upStep true stW9 tW9).1).prevLine = stW9.prevLine :=
  ⟨rfl, by decide,
    (pass_after_docstring_not_trailing_reported stW9 tW9 rfl (by decide)
      rfl (by decide)).1,
    (pass_after_docstring_not_trailing_reported stW9 tW9 rfl (by decide)
      rfl (by decide)).2.1,
    (pass_after_docstring_not_trailing_reported stW9 tW9 rfl (by decide)
      rfl (by decide)).2.2⟩

/-- C9 counterexample: the claim fails as stated.  On
`"""d"""\npass\nx\n` (tokenized exactly as `tokenize` does), the trailing
`pass` directly after the docstring is skipped by the trailing rule, but
the leading-pass rule fires at the following `x` token and reports row 2,
so `filter_useless_pass` deletes the `pass` line even though
`ignore_pass_after_docstring` is set. -/
theorem pass_after_docstring_removed_cex :
    uselessPassLineNumbers toksC9 true = [2] ∧
    filterUselessPass pyC9 srcC9 false true =
      [lit "\"\"\"d\"\"\"\n", lit "x\n"] := by
  refine ⟨by decide, by decide⟩

end Autoflake
